import Mathlib

/-!
Shallow embedding of `src/mountinfo.c` (openrc): a utility that enumerates the
mounted filesystems and reports a filtered subset of one field per mount.

Modelling conventions:
* A compiled POSIX extended regex (`regcomp` with `REG_EXTENDED | REG_NOSUB`)
  is abstracted as its match function `String → Bool`: `regexec` returning `0`
  (match) becomes `true`.
* A `char *` that may be NULL is an `Option String`; an operation that would
  dereference NULL (`regexec` or `strcmp` on a NULL argument) makes the whole
  computation return `none` (undefined behavior).  `some` results are the
  defined executions.
* The librc string-list container (`rc_strlist_addsortc`,
  `rc_strlist_reverse`, `rc_strlist_add`, declared in `strlist.h` but
  implemented outside `src/`) is modelled from the spec's container contract.
* `rc_is_env ("RC_QUIET", "yes")` is an environment lookup and enters the
  embedding as a boolean `quiet` parameter.
* Exit codes are `Nat`: `EXIT_SUCCESS = 0`, `EXIT_FAILURE = 1`.
* The fatal paths (`eerrorx` on an unopenable `/proc/mounts` or a failing
  `getmntinfo`, invalid regex, non-absolute mount point argument) abort before
  the pipeline runs; the embedding models the pipeline on the successfully
  acquired mount table.
-/

namespace Mountinfo

/-- Abstraction of a compiled regex: its match function. -/
abbrev StrPred := String → Bool

/-- Enum `mount_type` from mountinfo.c. -/
inductive MountType where
  | mount_from
  | mount_to
  | mount_fstype
  | mount_options
deriving DecidableEq

/-- Struct `args` from mountinfo.c.  `mounts` is the NULL-terminated string
list of explicit mount points; it is NULL in C exactly when no positional
argument was added, so NULL is modelled as the empty list. -/
structure Args where
  node_regex : Option StrPred
  skip_node_regex : Option StrPred
  fstype_regex : Option StrPred
  skip_fstype_regex : Option StrPred
  options_regex : Option StrPred
  skip_options_regex : Option StrPred
  mounts : List String
  mount_type : MountType

/-- Modelled from the spec: `rc_strlist_addsortc` (librc string-list
container, implemented outside `src/`).  Spec contract (§4.3): insert `value`
at the position keeping the list ascending by case-sensitive byte/codepoint
comparison (strcmp order, written here as the lexicographic order on the
character lists, which is the order `<` on `String`), as a no-op when `value`
is already present. -/
def rc_strlist_addsortc (list : List String) (value : String) : List String :=
  match list with
  | [] => [value]
  | x :: xs =>
    if value.data < x.data then value :: x :: xs
    else if value = x then x :: xs
    else x :: rc_strlist_addsortc xs value

/-- Modelled from the spec: `rc_strlist_reverse` (librc string-list container,
implemented outside `src/`).  Spec contract (§4.3): the set is reversed in
place after all records are processed. -/
def rc_strlist_reverse (list : List String) : List String :=
  list.reverse

/-- One short-circuit check of `process_mount`: `test` is the (possibly
crashing) evaluation of the rejection condition; when it holds the function
returns `res`, otherwise control falls through to the continuation `k`. -/
def checkC (test : Option Bool) (res : Int × List String)
    (k : Option (Int × List String)) : Option (Int × List String) :=
  match test with
  | none => none
  | some b => if b then some res else k

/-- Test `if (re && regexec (re, s, 0, NULL, 0) != 0)`: an include filter
rejects when the regex is set and the string does not match.  A set regex with
a NULL string is a NULL dereference inside `regexec`. -/
def failsInclude (re : Option StrPred) (s : Option String) : Option Bool :=
  match re with
  | none => some false
  | some r => s.map (fun v => !r v)

/-- Test `if (re && regexec (re, s, 0, NULL, 0) == 0)`: an exclude filter
rejects when the regex is set and the string matches. -/
def failsExclude (re : Option StrPred) (s : Option String) : Option Bool :=
  match re with
  | none => some false
  | some r => s.map (fun v => r v)

/-- The `args->mounts` block of `process_mount`: when the explicit mount list
is non-NULL, `STRLIST_FOREACH` compares each member against `to` with
`strcmp` (dereferencing `to`), and the record is rejected unless one member is
exactly equal. -/
def mounts_check (mounts : List String) (tgt : Option String) : Option Bool :=
  if mounts.isEmpty then some false
  else tgt.map (fun t => !(mounts.contains t))

/-- The `switch (args->mount_type)` of `process_mount`: `p` is set to the
field selected for output (a possibly NULL pointer). -/
def selectPtr (args : Args) (frm tgt fstype options : Option String) :
    Option String :=
  match args.mount_type with
  | .mount_from => frm
  | .mount_to => tgt
  | .mount_fstype => fstype
  | .mount_options => options

/-- Function `process_mount` from mountinfo.c.  `linux` selects the
`#ifdef __linux__` rootfs exclusion.  Returns `some (code, list)` with the C
return value and the accumulated list after the call, or `none` when the C
code would dereference a NULL field. -/
def process_mount (linux : Bool) (list : List String) (args : Args)
    (frm tgt fstype options : Option String) : Option (Int × List String) :=
  checkC (if linux then Option.map (fun f => f == "rootfs") fstype
          else some false) (-1, list)
  (checkC (failsInclude args.node_regex frm) (1, list)
  (checkC (failsExclude args.skip_node_regex frm) (1, list)
  (checkC (failsInclude args.fstype_regex fstype) (-1, list)
  (checkC (failsExclude args.skip_fstype_regex fstype) (-1, list)
  (checkC (failsInclude args.options_regex options) (-1, list)
  (checkC (failsExclude args.skip_options_regex options) (-1, list)
  (checkC (mounts_check args.mounts tgt) (-1, list)
  (match selectPtr args frm tgt fstype options with
   | some p => some (0, rc_strlist_addsortc list p)
   | none => some (-1, list)))))))))

/-- C `strsep (&p, " ")` on a non-NULL `p`, at the character-list level:
returns the token before the first space and, when a space was found, the
remainder after it (`none` means `p` became NULL: no delimiter was found). -/
def strsep : List Char → List Char × Option (List Char)
  | [] => ([], none)
  | c :: rest =>
    if c = ' ' then ([], some rest)
    else ((c :: (strsep rest).1), (strsep rest).2)

/-- C `strsep (&p, " ")` including the NULL-pointer case: `strsep` on a NULL
`p` returns NULL and leaves `p` NULL. -/
def strsepN : Option (List Char) → Option (List Char) × Option (List Char)
  | none => (none, none)
  | some s => (some (strsep s).1, (strsep s).2)

/-- The four successive `strsep` calls of the Linux `find_mounts` on one
`fgets` line (the line is taken exactly as `fgets` returns it, trailing
newline included): yields `(from, to, fst, opts)` as possibly NULL strings. -/
def parse_fields (line : List Char) :
    Option String × Option String × Option String × Option String :=
  let r0 := strsepN (some line)
  let r1 := strsepN r0.2
  let r2 := strsepN r1.2
  let r3 := strsepN r2.2
  (r0.1.map List.asString, r1.1.map List.asString,
   r2.1.map List.asString, r3.1.map List.asString)

/-- The `while (fgets (...))` loop of the Linux `find_mounts`, threading the
accumulated list; the return code of `process_mount` is ignored, but a NULL
dereference (`none`) aborts the whole execution. -/
def find_mounts_linux_from (args : Args) (list : List String) :
    List (List Char) → Option (List String)
  | [] => some list
  | line :: rest =>
    match process_mount true list args (parse_fields line).1
        (parse_fields line).2.1 (parse_fields line).2.2.1
        (parse_fields line).2.2.2 with
    | none => none
    | some (_, list2) => find_mounts_linux_from args list2 rest

/-- Linux realization of `find_mounts`: process every line read from
`/proc/mounts`, starting from the NULL (empty) list. -/
def find_mounts_linux (args : Args) (lines : List (List Char)) :
    Option (List String) :=
  find_mounts_linux_from args [] lines

/-- Relevant fields of `struct statfs` as used by the BSD `find_mounts`. -/
structure Statfs where
  f_flags : Nat
  f_mntfromname : String
  f_mntonname : String
  f_fstypename : String

/-- Platform flag constants from FreeBSD sys/mount.h (values of the visible
mount flags referenced by the `optnames` table). -/
def MNT_RDONLY : Nat := 0x00000001
def MNT_SYNCHRONOUS : Nat := 0x00000002
def MNT_NOEXEC : Nat := 0x00000004
def MNT_NOSUID : Nat := 0x00000008
def MNT_UNION : Nat := 0x00000020
def MNT_ASYNC : Nat := 0x00000040
def MNT_SUIDDIR : Nat := 0x00100000
def MNT_SOFTDEP : Nat := 0x00200000
def MNT_NOSYMFOLLOW : Nat := 0x00400000
def MNT_GJOURNAL : Nat := 0x02000000
def MNT_MULTILABEL : Nat := 0x04000000
def MNT_ACLS : Nat := 0x08000000
def MNT_NOATIME : Nat := 0x10000000
def MNT_NOCLUSTERR : Nat := 0x40000000
def MNT_NOCLUSTERW : Nat := 0x80000000
def MNT_EXPORTED : Nat := 0x00000100
def MNT_LOCAL : Nat := 0x00001000
def MNT_QUOTA : Nat := 0x00002000
def MNT_ROOTFS : Nat := 0x00004000
def MNT_USER : Nat := 0x00008000
def MNT_IGNORE : Nat := 0x00800000

/-- MNT_VISFLAGMASK from FreeBSD sys/mount.h: the mask of flags visible to
userland, applied to `f_flags` before the options string is built. -/
def MNT_VISFLAGMASK : Nat :=
  MNT_RDONLY ||| MNT_SYNCHRONOUS ||| MNT_NOEXEC ||| MNT_NOSUID |||
  MNT_UNION ||| MNT_ASYNC ||| MNT_SUIDDIR ||| MNT_SOFTDEP |||
  MNT_NOSYMFOLLOW ||| MNT_GJOURNAL ||| MNT_MULTILABEL ||| MNT_ACLS |||
  MNT_NOATIME ||| MNT_NOCLUSTERR ||| MNT_NOCLUSTERW ||| MNT_EXPORTED |||
  MNT_LOCAL ||| MNT_QUOTA ||| MNT_ROOTFS ||| MNT_USER ||| MNT_IGNORE

/-- The fixed `optnames` table of `(flag, name)` pairs from mountinfo.c
(taken there from FreeBSD mount.c); the `{0, NULL}` sentinel is the end of
the list. -/
def optnames : List (Nat × String) :=
  [(MNT_ASYNC, "asynchronous"),
   (MNT_EXPORTED, "NFS exported"),
   (MNT_LOCAL, "local"),
   (MNT_NOATIME, "noatime"),
   (MNT_NOEXEC, "noexec"),
   (MNT_NOSUID, "nosuid"),
   (MNT_NOSYMFOLLOW, "nosymfollow"),
   (MNT_QUOTA, "with quotas"),
   (MNT_RDONLY, "read-only"),
   (MNT_SYNCHRONOUS, "synchronous"),
   (MNT_UNION, "union"),
   (MNT_NOCLUSTERR, "noclusterr"),
   (MNT_NOCLUSTERW, "noclusterw"),
   (MNT_SUIDDIR, "suiddir"),
   (MNT_SOFTDEP, "soft-updates"),
   (MNT_MULTILABEL, "multilabel"),
   (MNT_ACLS, "acls"),
   (MNT_GJOURNAL, "gjournal")]

/-- C `flags &= ~o->o_opt` on the bitmask: clear the bits of `opt`. -/
def clearFlags (flags opt : Nat) : Nat :=
  flags - (flags &&& opt)

/-- The options-building loop of the BSD `find_mounts`: walk `optnames` while
`flags` is nonzero, appending the name of each flag present (comma-separated)
to the accumulated `options` string, which starts as NULL and stays NULL when
no flag matches. -/
def build_options : Nat → List (Nat × String) → Option String → Option String
  | _, [], options => options
  | flags, (opt, name) :: rest, options =>
    if flags == 0 then options
    else
      build_options (clearFlags flags opt) rest
        (if flags &&& opt != 0 then
          some (match options with
                | none => name
                | some s => s ++ "," ++ name)
         else options)

/-- The entry loop of the BSD `find_mounts`, threading the accumulated list
over the `getmntinfo` result. -/
def find_mounts_bsd_from (args : Args) (list : List String) :
    List Statfs → Option (List String)
  | [] => some list
  | m :: rest =>
    match process_mount false list args (some m.f_mntfromname)
        (some m.f_mntonname) (some m.f_fstypename)
        (build_options (m.f_flags &&& MNT_VISFLAGMASK) optnames none) with
    | none => none
    | some (_, list2) => find_mounts_bsd_from args list2 rest

/-- BSD realization of `find_mounts`: process every `statfs` entry returned
by `getmntinfo`, starting from the NULL (empty) list. -/
def find_mounts_bsd (args : Args) (mnts : List Statfs) :
    Option (List String) :=
  find_mounts_bsd_from args [] mnts

/-- A value survives the point-filter pass of `mountinfo`: `point_regex`
unset or matching, and `skip_point_regex` unset or not matching. -/
def survivesPoint (point skipp : Option StrPred) (n : String) : Bool :=
  (match point with | some r => r n | none => true) &&
  (match skipp with | some r => !r n | none => true)

/-- One iteration of the `STRLIST_FOREACH` output loop of `mountinfo`:
`continue` on a point-filter rejection, otherwise print (unless quiet) and
set the result to EXIT_SUCCESS. -/
def point_step (point skipp : Option StrPred) (quiet : Bool)
    (acc : List String × Nat) (n : String) : List String × Nat :=
  if (match point with | some r => !r n | none => false) then acc
  else if (match skipp with | some r => r n | none => false) then acc
  else ((if quiet then acc.1 else acc.1 ++ [n]), 0)

/-- The tail of `mountinfo` after `find_mounts` returns `nodes`: reverse the
list once, then run the point-filter/output loop with the result initialized
to EXIT_FAILURE.  Returns the lines printed to stdout and the exit status. -/
def mountinfo_output (point skipp : Option StrPred) (quiet : Bool)
    (nodes : List String) : List String × Nat :=
  (rc_strlist_reverse nodes).foldl (point_step point skipp quiet) ([], 1)

/-- Decision outcomes of the spec's Predicate Set (§4.1), refined by which
group of checks rejected (the code observably distinguishes the node-filter
rejections, which return 1, from the others, which return -1). -/
inductive Decision where
  | rejectPlatform
  | rejectNode
  | rejectSilent
  | accept (value : String)
deriving DecidableEq

/-- Spec §4.1 step 9: the field named by `selectField` becomes the output
value. -/
def select_value (args : Args) (source target fstype options : String) :
    String :=
  match args.mount_type with
  | .mount_from => source
  | .mount_to => target
  | .mount_fstype => fstype
  | .mount_options => options

/-- Written from the spec's words (§4.1), for comparison with
`process_mount`: the per-record checks in the spec's order with
short-circuit rejection — 1. platform artifact (rootfs), 2. nodeInclude,
3. nodeExclude, 4. fstypeInclude, 5. fstypeExclude, 6. optionsInclude,
7. optionsExclude, 8. explicit targets membership, 9. accept and select. -/
def predicate_spec (args : Args) (source target fstype options : String) :
    Decision :=
  if fstype == "rootfs" then .rejectPlatform
  else if (match args.node_regex with
           | some r => !r source
           | none => false) then .rejectNode
  else if (match args.skip_node_regex with
           | some r => r source
           | none => false) then .rejectNode
  else if (match args.fstype_regex with
           | some r => !r fstype
           | none => false) then .rejectSilent
  else if (match args.skip_fstype_regex with
           | some r => r fstype
           | none => false) then .rejectSilent
  else if (match args.options_regex with
           | some r => !r options
           | none => false) then .rejectSilent
  else if (match args.skip_options_regex with
           | some r => r options
           | none => false) then .rejectSilent
  else if !args.mounts.isEmpty && !args.mounts.contains target then
    .rejectSilent
  else .accept (select_value args source target fstype options)

/-- Return code of `process_mount` for each spec decision. -/
def decision_code : Decision → Int
  | .rejectPlatform => -1
  | .rejectNode => 1
  | .rejectSilent => -1
  | .accept _ => 0

/-- Effect of `process_mount` on the accumulated list for each spec
decision: only an accepted record inserts its selected value. -/
def decision_list (list : List String) : Decision → List String
  | .accept v => rc_strlist_addsortc list v
  | _ => list

/-- Args with no filters at all and the given selected field. -/
def noFilterArgs (mt : MountType) : Args :=
  ⟨none, none, none, none, none, none, [], mt⟩

/-- Args whose only filter is a node regex matching everything (used to
exhibit the fixed rootfs exclusion firing before the node filter). -/
def nodeRegexArgs : Args :=
  ⟨some (fun _ => true), none, none, none, none, none, [], .mount_to⟩

/-- Args carrying only the two explicit target mount points of the spec's
exact-match scenario. -/
def targetsArgs : Args :=
  ⟨none, none, none, none, none, none, ["/mnt/dat", "/mnt/data2"],
   .mount_to⟩

/-- Args whose only filter is an options regex matching everything
(in particular matching the empty string). -/
def optionsRegexArgs : Args :=
  ⟨none, none, none, none, some (fun _ => true), none, [], .mount_to⟩

theorem failsInclude_some (re : Option StrPred) (s : String) :
    failsInclude re (some s) =
      some (match re with | some r => !r s | none => false) := by
  cases re <;> rfl

theorem failsExclude_some (re : Option StrPred) (s : String) :
    failsExclude re (some s) =
      some (match re with | some r => r s | none => false) := by
  cases re <;> rfl

theorem mounts_check_some (mounts : List String) (t : String) :
    mounts_check mounts (some t) =
      some (!mounts.isEmpty && !mounts.contains t) := by
  cases h : mounts.isEmpty <;> simp [mounts_check, h]

theorem selectPtr_some (args : Args) (s t f o : String) :
    selectPtr args (some s) (some t) (some f) (some o) =
      some (select_value args s t f o) := by
  cases h : args.mount_type <;> simp [selectPtr, select_value, h]

theorem chain_step (list : List String) (t : Option Bool) (b : Bool)
    (ht : t = some b) (r : Int × List String) (d : Decision)
    (hr : r = (decision_code d, decision_list list d))
    (k : Option (Int × List String)) (dk : Decision)
    (hk : k = some (decision_code dk, decision_list list dk)) :
    checkC t r k = some (decision_code (if b then d else dk),
      decision_list list (if b then d else dk)) := by
  subst ht hr hk
  cases b <;> simp [checkC]

/-- Core refinement: on the Linux platform, for a record with all four fields
present, `process_mount` returns exactly the decision of the spec-ordered
predicate chain — the return code determined by the first rejecting check and
the accumulated list extended exactly when the record is accepted. -/
theorem process_mount_eq_spec (args : Args) (s t f o : String)
    (list : List String) :
    process_mount true list args (some s) (some t) (some f) (some o) =
      some (decision_code (predicate_spec args s t f o),
            decision_list list (predicate_spec args s t f o)) := by
  unfold process_mount predicate_spec
  refine chain_step list _ (f == "rootfs") rfl _ .rejectPlatform rfl _ _ ?_
  refine chain_step list _ _ (failsInclude_some args.node_regex s) _
    .rejectNode rfl _ _ ?_
  refine chain_step list _ _ (failsExclude_some args.skip_node_regex s) _
    .rejectNode rfl _ _ ?_
  refine chain_step list _ _ (failsInclude_some args.fstype_regex f) _
    .rejectSilent rfl _ _ ?_
  refine chain_step list _ _ (failsExclude_some args.skip_fstype_regex f) _
    .rejectSilent rfl _ _ ?_
  refine chain_step list _ _ (failsInclude_some args.options_regex o) _
    .rejectSilent rfl _ _ ?_
  refine chain_step list _ _ (failsExclude_some args.skip_options_regex o) _
    .rejectSilent rfl _ _ ?_
  refine chain_step list _ _ (mounts_check_some args.mounts t) _
    .rejectSilent rfl _ _ ?_
  rw [selectPtr_some]
  rfl

theorem checkC_out {t : Option Bool} {r res : Int × List String}
    {k : Option (Int × List String)} (h : checkC t r k = some res) :
    res = r ∨ k = some res := by
  unfold checkC at h
  cases t with
  | none => exact absurd h (by simp)
  | some b =>
    cases b with
    | true => simp at h; exact Or.inl h.symm
    | false => simp at h; exact Or.inr h

/-- The only effect `process_mount` ever has on the accumulated list is to
insert one value with the sorted-deduplicating insertion. -/
theorem process_mount_list_effect (linux : Bool) (list : List String)
    (args : Args) (frm tgt fstype options : Option String)
    (c : Int) (out : List String)
    (h : process_mount linux list args frm tgt fstype options = some (c, out)) :
    out = list ∨ ∃ v, out = rc_strlist_addsortc list v := by
  unfold process_mount at h
  rcases checkC_out h with h1 | h
  · exact Or.inl (congrArg Prod.snd h1)
  rcases checkC_out h with h1 | h
  · exact Or.inl (congrArg Prod.snd h1)
  rcases checkC_out h with h1 | h
  · exact Or.inl (congrArg Prod.snd h1)
  rcases checkC_out h with h1 | h
  · exact Or.inl (congrArg Prod.snd h1)
  rcases checkC_out h with h1 | h
  · exact Or.inl (congrArg Prod.snd h1)
  rcases checkC_out h with h1 | h
  · exact Or.inl (congrArg Prod.snd h1)
  rcases checkC_out h with h1 | h
  · exact Or.inl (congrArg Prod.snd h1)
  rcases checkC_out h with h1 | h
  · exact Or.inl (congrArg Prod.snd h1)
  cases hsel : selectPtr args frm tgt fstype options with
  | some p =>
    rw [hsel] at h
    simp only [Option.some.injEq, Prod.mk.injEq] at h
    exact Or.inr ⟨p, h.2.symm⟩
  | none =>
    rw [hsel] at h
    simp only [Option.some.injEq, Prod.mk.injEq] at h
    exact Or.inl h.2.symm

/-- Invariant preservation along the Linux enumeration loop: any property of
the accumulated list preserved by the sorted insertion holds at the end. -/
theorem find_mounts_linux_from_inv (P : List String → Prop)
    (hadd : ∀ l v, P l → P (rc_strlist_addsortc l v)) (args : Args) :
    ∀ (lines : List (List Char)) (list out : List String), P list →
      find_mounts_linux_from args list lines = some out → P out := by
  intro lines
  induction lines with
  | nil =>
    intro list out hP h
    simp only [find_mounts_linux_from, Option.some.injEq] at h
    rwa [← h]
  | cons line rest ih =>
    intro list out hP h
    unfold find_mounts_linux_from at h
    cases hp : process_mount true list args (parse_fields line).1
        (parse_fields line).2.1 (parse_fields line).2.2.1
        (parse_fields line).2.2.2 with
    | none => rw [hp] at h; exact absurd h (by simp)
    | some pr =>
      rw [hp] at h
      have heff := process_mount_list_effect true list args
        (parse_fields line).1 (parse_fields line).2.1
        (parse_fields line).2.2.1 (parse_fields line).2.2.2 pr.1 pr.2 hp
      have hP2 : P pr.2 := by
        rcases heff with h2 | ⟨v, h2⟩
        · rw [h2]; exact hP
        · rw [h2]; exact hadd list v hP
      exact ih pr.2 out hP2 h

theorem string_lt_iff_data_lt (a b : String) : a.data < b.data ↔ a < b :=
  String.lt_iff_toList_lt.symm

theorem mem_addsortc (l : List String) (v a : String) :
    a ∈ rc_strlist_addsortc l v ↔ a ∈ l ∨ a = v := by
  induction l with
  | nil => simp [rc_strlist_addsortc]
  | cons x xs ih =>
    unfold rc_strlist_addsortc
    split_ifs with h1 h2
    · simp [List.mem_cons]; tauto
    · subst h2; simp [List.mem_cons]; tauto
    · simp [List.mem_cons, ih]; tauto

theorem sorted_addsortc (l : List String) (v : String)
    (h : l.Sorted (· < ·)) : (rc_strlist_addsortc l v).Sorted (· < ·) := by
  induction l with
  | nil => simp [rc_strlist_addsortc]
  | cons x xs ih =>
    rw [List.sorted_cons] at h
    obtain ⟨hx, hxs⟩ := h
    unfold rc_strlist_addsortc
    split_ifs with h1 h2
    · rw [List.sorted_cons]
      refine ⟨?_, ?_⟩
      · intro b hb
        rcases List.mem_cons.mp hb with hb | hb
        · rw [hb]; exact (string_lt_iff_data_lt v x).mp h1
        · exact lt_trans ((string_lt_iff_data_lt v x).mp h1) (hx b hb)
      · rw [List.sorted_cons]; exact ⟨hx, hxs⟩
    · rw [List.sorted_cons]; exact ⟨hx, hxs⟩
    · rw [List.sorted_cons]
      refine ⟨?_, ih hxs⟩
      intro b hb
      rcases (mem_addsortc xs v b).mp hb with hb | hb
      · exact hx b hb
      · rw [hb]
        have hxv : ¬ v < x := fun hlt =>
          h1 ((string_lt_iff_data_lt v x).mpr hlt)
        exact lt_of_le_of_ne (not_lt.mp hxv) (Ne.symm h2)

/-- The Linux enumeration always leaves the accumulated list sorted strictly
ascending. -/
theorem find_mounts_linux_sorted (args : Args) (lines : List (List Char))
    (out : List String) (h : find_mounts_linux args lines = some out) :
    out.Sorted (· < ·) :=
  find_mounts_linux_from_inv (fun l => l.Sorted (· < ·))
    (fun l v hl => sorted_addsortc l v hl) args lines [] out (by simp) h

theorem point_step_eq (point skipp : Option StrPred) (quiet : Bool)
    (acc : List String × Nat) (n : String) :
    point_step point skipp quiet acc n =
      if survivesPoint point skipp n
      then ((if quiet then acc.1 else acc.1 ++ [n]), 0)
      else acc := by
  unfold point_step survivesPoint
  cases point with
  | none =>
    cases skipp with
    | none => simp
    | some r2 => cases h2 : r2 n <;> simp [h2]
  | some r1 =>
    cases h1 : r1 n with
    | true =>
      cases skipp with
      | none => simp [h1]
      | some r2 => cases h2 : r2 n <;> simp [h1, h2]
    | false => simp [h1]

theorem foldl_point_step (point skipp : Option StrPred) (quiet : Bool) :
    ∀ (l : List String) (acc : List String × Nat),
      l.foldl (point_step point skipp quiet) acc =
        (acc.1 ++ (if quiet then []
                   else l.filter (survivesPoint point skipp)),
         if l.any (survivesPoint point skipp) then 0 else acc.2) := by
  intro l
  induction l with
  | nil => intro acc; simp
  | cons x xs ih =>
    intro acc
    rw [List.foldl_cons, point_step_eq, ih]
    cases hs : survivesPoint point skipp x with
    | true =>
      simp only [hs, if_true, List.filter_cons, List.any_cons,
        Bool.true_or, ite_self]
      cases quiet <;> simp
    | false =>
      simp [hs, List.filter_cons, List.any_cons]

/-- Characterization of the output stage: the printed lines are the
survivors of the point filter over the reversed list (nothing under quiet),
and the exit status is success exactly when some value survives. -/
theorem mountinfo_output_eq (point skipp : Option StrPred) (quiet : Bool)
    (nodes : List String) :
    mountinfo_output point skipp quiet nodes =
      ((if quiet then []
        else (rc_strlist_reverse nodes).filter (survivesPoint point skipp)),
       if (rc_strlist_reverse nodes).any (survivesPoint point skipp)
       then 0 else 1) := by
  unfold mountinfo_output
  rw [foldl_point_step]
  simp

theorem any_reverse_iff (point skipp : Option StrPred)
    (nodes : List String) :
    (rc_strlist_reverse nodes).any (survivesPoint point skipp) = true ↔
      ∃ n ∈ nodes, survivesPoint point skipp n = true := by
  simp [rc_strlist_reverse, List.any_eq_true, List.mem_reverse]

/-- An accepted decision with a non-NULL explicit target list means the
record's target is a member of that list. -/
theorem predicate_spec_accept_mem (args : Args) (s t f o v : String)
    (hne : args.mounts ≠ [])
    (h : predicate_spec args s t f o = .accept v) : t ∈ args.mounts := by
  unfold predicate_spec at h
  split_ifs at h with h1 h2 h3 h4 h5 h6 h7 h8
  have h9 : args.mounts.isEmpty = true ∨ args.mounts.contains t = true := by
    cases hie : args.mounts.isEmpty with
    | true => exact Or.inl rfl
    | false =>
      cases hct : args.mounts.contains t with
      | true => exact Or.inr rfl
      | false => rw [hie, hct] at h8; simp at h8
  rcases h9 with h9 | h9
  · exact absurd (List.isEmpty_iff.mp h9) hne
  · exact List.mem_of_elem_eq_true h9

/-- C1: for a record with all four fields present, `process_mount` computes
exactly the spec-ordered short-circuit predicate chain (`predicate_spec`:
rootfs artifact, nodeInclude, nodeExclude, fstypeInclude, fstypeExclude,
optionsInclude, optionsExclude, explicit targets, then acceptance), and only
an accepted record has its selected field accumulated.  The remaining
conjuncts observe the order through NULL fields: the rootfs exclusion fires
before the node filter would dereference a NULL source; the fstype checks
fire before a configured options regex would dereference NULL options; the
options checks fire before the targets test would dereference a NULL
target. -/
theorem C1_checks_in_spec_order (args : Args) (s t f o : String)
    (list : List String) :
    (process_mount true list args (some s) (some t) (some f) (some o) =
       some (decision_code (predicate_spec args s t f o),
             decision_list list (predicate_spec args s t f o)))
    ∧ (∀ (tgt opts : Option String),
        process_mount true list args none tgt (some "rootfs") opts =
          some (-1, list))
    ∧ (∀ (r : StrPred) (opts : Option String),
        args.node_regex = none → args.skip_node_regex = none →
        args.fstype_regex = some r → r f = false → f ≠ "rootfs" →
        process_mount true list args (some s) (some t) (some f) opts =
          some (-1, list))
    ∧ (∀ (r : StrPred) (tgt : Option String),
        args.node_regex = none → args.skip_node_regex = none →
        args.fstype_regex = none → args.skip_fstype_regex = none →
        args.options_regex = some r → r o = false → f ≠ "rootfs" →
        process_mount true list args (some s) tgt (some f) (some o) =
          some (-1, list)) := by
  refine ⟨process_mount_eq_spec args s t f o list, ?_, ?_, ?_⟩
  · intro tgt opts
    simp [process_mount, checkC]
  · intro r opts h1 h2 h3 h4 h5
    simp [process_mount, checkC, failsInclude, failsExclude,
      h1, h2, h3, h4, h5]
  · intro r tgt h1 h2 h3 h4 h5 h6 h7
    simp [process_mount, checkC, failsInclude, failsExclude,
      h1, h2, h3, h4, h5, h6, h7]

/-- Witness for C1: the no-filter configuration accepts a full record and
accumulates its target; with a node regex configured, a rootfs record whose
source field is NULL is still rejected by the platform check first. -/
theorem C1_checks_in_spec_order_witness :
    process_mount true [] (noFilterArgs .mount_to) (some "/dev/sda1")
      (some "/") (some "ext4") (some "rw,relatime") = some (0, ["/"])
    ∧ process_mount true [] nodeRegexArgs none (some "/") (some "rootfs")
      (some "rw") = some (-1, []) := by
  constructor
  · exact (C1_checks_in_spec_order (noFilterArgs .mount_to) "/dev/sda1" "/"
      "ext4" "rw,relatime" []).1.trans (by decide)
  · exact (C1_checks_in_spec_order nodeRegexArgs "x" "x" "x" "x" []).2.1
      (some "/") (some "rw")

/-- C2: the Linux enumeration accumulates the selected values in ascending
case-sensitive lexicographic order; the single reversal hands the point
filter a descending list, and the emitted output lines are in descending
lexicographic order as well. -/
theorem C2_descending_emission (args : Args) (lines : List (List Char))
    (nodes : List String) (point skipp : Option StrPred)
    (h : find_mounts_linux args lines = some nodes) :
    nodes.Sorted (· < ·)
    ∧ (rc_strlist_reverse nodes).Sorted (· > ·)
    ∧ (mountinfo_output point skipp false nodes).1.Sorted (· > ·) := by
  have hs := find_mounts_linux_sorted args lines nodes h
  have hrev : (rc_strlist_reverse nodes).Sorted (· > ·) :=
    List.pairwise_reverse.mpr hs
  refine ⟨hs, hrev, ?_⟩
  rw [mountinfo_output_eq]
  simp only [if_neg Bool.false_ne_true, Bool.false_eq_true, if_false]
  exact List.Pairwise.filter _ hrev

/-- Witness for C2: two records selecting `ext4` and `tmpfs` accumulate in
ascending order and are emitted descending. -/
theorem C2_descending_emission_witness :
    find_mounts_linux (noFilterArgs .mount_fstype)
      [['a', ' ', 'b', ' ', 'e', 'x', 't', '4', ' ', 'r', 'w', '\n'],
       ['c', ' ', 'd', ' ', 't', 'm', 'p', 'f', 's', ' ', 'r', 'w', '\n']]
      = some ["ext4", "tmpfs"]
    ∧ (["ext4", "tmpfs"] : List String).Sorted (· < ·)
    ∧ (mountinfo_output none none false ["ext4", "tmpfs"]).1.Sorted
        (· > ·) := by
  have h : find_mounts_linux (noFilterArgs .mount_fstype)
      [['a', ' ', 'b', ' ', 'e', 'x', 't', '4', ' ', 'r', 'w', '\n'],
       ['c', ' ', 'd', ' ', 't', 'm', 'p', 'f', 's', ' ', 'r', 'w', '\n']]
      = some ["ext4", "tmpfs"] := by decide
  have ht := C2_descending_emission _ _ _ none none h
  exact ⟨h, ht.1, ht.2.2⟩

/-- C3: the exit status is 0 exactly when at least one accumulated value
survives the point filter and 1 otherwise; it does not depend on quiet,
which only empties the printed output. -/
theorem C3_exit_status (point skipp : Option StrPred) (quiet : Bool)
    (nodes : List String) :
    ((mountinfo_output point skipp quiet nodes).2 = 0 ↔
       ∃ n ∈ nodes, survivesPoint point skipp n = true)
    ∧ ((mountinfo_output point skipp quiet nodes).2 = 0 ∨
       (mountinfo_output point skipp quiet nodes).2 = 1)
    ∧ (mountinfo_output point skipp quiet nodes).2 =
        (mountinfo_output point skipp false nodes).2
    ∧ (mountinfo_output point skipp true nodes).1 = [] := by
  refine ⟨?_, ?_, ?_, ?_⟩
  · rw [mountinfo_output_eq, ← any_reverse_iff point skipp nodes]
    cases hany : (rc_strlist_reverse nodes).any (survivesPoint point skipp)
      <;> simp [hany]
  · rw [mountinfo_output_eq]
    cases hany : (rc_strlist_reverse nodes).any (survivesPoint point skipp)
      <;> simp [hany]
  · rw [mountinfo_output_eq, mountinfo_output_eq]
  · rw [mountinfo_output_eq]
    simp

/-- C4: the accumulated set never contains two equal strings, and neither
does the printed output. -/
theorem C4_no_duplicates (args : Args) (lines : List (List Char))
    (nodes : List String) (point skipp : Option StrPred) (quiet : Bool)
    (h : find_mounts_linux args lines = some nodes) :
    nodes.Nodup ∧ (mountinfo_output point skipp quiet nodes).1.Nodup := by
  have hs := find_mounts_linux_sorted args lines nodes h
  have hnd : nodes.Nodup := hs.imp ne_of_lt
  refine ⟨hnd, ?_⟩
  rw [mountinfo_output_eq]
  cases quiet with
  | true => simp
  | false =>
    simp only [Bool.false_eq_true, if_false]
    exact (List.nodup_reverse.mpr hnd).filter _

/-- Witness for C4: two distinct records both selecting `ext4` contribute
exactly one entry and one output line. -/
theorem C4_no_duplicates_witness :
    find_mounts_linux (noFilterArgs .mount_fstype)
      [['a', ' ', 'b', ' ', 'e', 'x', 't', '4', ' ', 'r', 'w', '\n'],
       ['c', ' ', 'd', ' ', 'e', 'x', 't', '4', ' ', 'r', 'o', '\n']]
      = some ["ext4"]
    ∧ (["ext4"] : List String).Nodup
    ∧ (mountinfo_output none none false ["ext4"]).1.Nodup := by
  have h : find_mounts_linux (noFilterArgs .mount_fstype)
      [['a', ' ', 'b', ' ', 'e', 'x', 't', '4', ' ', 'r', 'w', '\n'],
       ['c', ' ', 'd', ' ', 'e', 'x', 't', '4', ' ', 'r', 'o', '\n']]
      = some ["ext4"] := by decide
  have ht := C4_no_duplicates _ _ _ none none false h
  exact ⟨h, ht.1, ht.2⟩

/-- C5: the point filter runs over the already-selected output values: the
printed output is exactly the filter of the (reversed) accumulated list by
the survival predicate, and a value fails to survive precisely when
pointInclude is set and does not match, or pointExclude is set and
matches.  A skipped value never stops the pass (filter semantics). -/
theorem C5_point_filter (point skipp : Option StrPred)
    (nodes : List String) :
    (mountinfo_output point skipp false nodes).1 =
      (rc_strlist_reverse nodes).filter (survivesPoint point skipp)
    ∧ (∀ n : String, survivesPoint point skipp n = false ↔
        ((∃ r, point = some r ∧ r n = false) ∨
         (∃ r, skipp = some r ∧ r n = true))) := by
  constructor
  · rw [mountinfo_output_eq]
    simp
  · intro n
    unfold survivesPoint
    cases point with
    | none =>
      cases skipp with
      | none => simp
      | some r2 => cases h2 : r2 n <;> simp [h2]
    | some r1 =>
      cases h1 : r1 n with
      | false => simp [h1]
      | true =>
        cases skipp with
        | none => simp [h1]
        | some r2 => cases h2 : r2 n <;> simp [h1, h2]

/-- C6: with a non-empty explicit target set, a record is rejected (with
the list unchanged) unless its target is exactly equal to some member; a
member target makes the targets check transparent; and the test is
order-independent (stable under any permutation of the set). -/
theorem C6_targets_exact_match (args : Args) (s t f o : String)
    (list : List String) :
    (args.mounts ≠ [] → t ∉ args.mounts →
      ∃ c, process_mount true list args (some s) (some t) (some f) (some o)
             = some (c, list) ∧ c ≠ 0)
    ∧ (t ∈ args.mounts →
        process_mount true list args (some s) (some t) (some f) (some o) =
          process_mount true list { args with mounts := [] }
            (some s) (some t) (some f) (some o))
    ∧ (∀ mounts2 : List String, args.mounts.Perm mounts2 →
        process_mount true list args (some s) (some t) (some f) (some o) =
          process_mount true list { args with mounts := mounts2 }
            (some s) (some t) (some f) (some o)) := by
  refine ⟨?_, ?_, ?_⟩
  · intro hne hmem
    cases hd : predicate_spec args s t f o with
    | rejectPlatform =>
      exact ⟨-1, by rw [process_mount_eq_spec, hd]; rfl, by decide⟩
    | rejectNode =>
      exact ⟨1, by rw [process_mount_eq_spec, hd]; rfl, by decide⟩
    | rejectSilent =>
      exact ⟨-1, by rw [process_mount_eq_spec, hd]; rfl, by decide⟩
    | accept v =>
      exact absurd (predicate_spec_accept_mem args s t f o v hne hd) hmem
  · intro hmem
    rw [process_mount_eq_spec, process_mount_eq_spec]
    have hct : args.mounts.contains t = true :=
      List.elem_eq_true_of_mem hmem
    have h8 : (!args.mounts.isEmpty && !args.mounts.contains t) = false := by
      rw [hct]
      simp
    have hd : predicate_spec args s t f o =
        predicate_spec { args with mounts := [] } s t f o := by
      unfold predicate_spec
      rw [h8]
      rfl
    rw [hd]
  · intro mounts2 hp
    rw [process_mount_eq_spec, process_mount_eq_spec]
    have hie : args.mounts.isEmpty = mounts2.isEmpty := by
      apply Bool.eq_iff_iff.mpr
      rw [List.isEmpty_iff, List.isEmpty_iff]
      constructor
      · intro hx; rw [hx] at hp; exact (hp.symm.eq_nil)
      · intro hx; rw [hx] at hp; exact hp.eq_nil
    have hct : args.mounts.contains t = mounts2.contains t := by
      apply Bool.eq_iff_iff.mpr
      constructor
      · intro hx
        exact List.elem_eq_true_of_mem (hp.mem_iff.mp
          (List.mem_of_elem_eq_true hx))
      · intro hx
        exact List.elem_eq_true_of_mem (hp.mem_iff.mpr
          (List.mem_of_elem_eq_true hx))
    have hd : predicate_spec args s t f o =
        predicate_spec { args with mounts := mounts2 } s t f o := by
      unfold predicate_spec
      rw [hie, hct]
      rfl
    rw [hd]

/-- Witness for C6: the spec's scenario — target `/mnt/data` matches
neither `/mnt/dat` nor `/mnt/data2`, so the record is rejected and the
accumulated list stays empty. -/
theorem C6_targets_exact_match_witness :
    ∃ c, process_mount true [] targetsArgs (some "/dev/sda1")
      (some "/mnt/data") (some "ext4") (some "rw") = some (c, []) ∧
      c ≠ 0 :=
  (C6_targets_exact_match targetsArgs "/dev/sda1" "/mnt/data" "ext4" "rw"
    []).1 (by decide) (by decide)

theorem strsep_no_space (l : List Char) (h : ' ' ∉ l) :
    strsep l = (l, none) := by
  induction l with
  | nil => rfl
  | cons c rest ih =>
    have hcne : ¬ c = ' ' := fun hcc => h (hcc ▸ List.mem_cons_self c rest)
    have hr : ' ' ∉ rest := fun hm => h (List.mem_cons_of_mem c hm)
    unfold strsep
    rw [if_neg hcne, ih hr]

theorem strsep_append (a r : List Char) (h : ' ' ∉ a) :
    strsep (a ++ ' ' :: r) = (a, some r) := by
  induction a with
  | nil => simp [strsep]
  | cons c rest ih =>
    have hcne : ¬ c = ' ' := fun hcc => h (hcc ▸ List.mem_cons_self c rest)
    have hr : ' ' ∉ rest := fun hm => h (List.mem_cons_of_mem c hm)
    rw [List.cons_append]
    unfold strsep
    rw [if_neg hcne, ih hr]

theorem failsInclude_isSome (re : Option StrPred) (s : String) :
    (failsInclude re (some s)).isSome := by
  cases re <;> simp [failsInclude]

theorem failsExclude_isSome (re : Option StrPred) (s : String) :
    (failsExclude re (some s)).isSome := by
  cases re <;> simp [failsExclude]

theorem mounts_check_isSome (mounts : List String) (t : String) :
    (mounts_check mounts (some t)).isSome := by
  cases h : mounts.isEmpty <;> simp [mounts_check, h]

theorem checkC_keeps (t : Option Bool) (code : Int) (list : List String)
    (k : Option (Int × List String)) (hb : t.isSome)
    (hk : ∃ c, k = some (c, list)) :
    ∃ c, checkC t (code, list) k = some (c, list) := by
  rcases Option.isSome_iff_exists.mp hb with ⟨b, hbb⟩
  subst hbb
  cases b with
  | false => simpa [checkC] using hk
  | true => exact ⟨code, by simp [checkC]⟩

/-- A record whose options field is NULL, evaluated under a configuration
with no options regexes and the options field selected, never crashes and
never changes the accumulated list: every check either passes or rejects,
and the NULL selected field makes the final step return -1. -/
theorem process_mount_opts_none_keeps (linux : Bool) (args : Args)
    (list : List String) (frm tgt fstype : String)
    (ho : args.options_regex = none) (hso : args.skip_options_regex = none)
    (hmt : args.mount_type = .mount_options) :
    ∃ c, process_mount linux list args (some frm) (some tgt) (some fstype)
        none = some (c, list) := by
  unfold process_mount
  refine checkC_keeps _ _ _ _ ?_ ?_
  · cases linux <;> simp
  refine checkC_keeps _ _ _ _ (failsInclude_isSome _ _) ?_
  refine checkC_keeps _ _ _ _ (failsExclude_isSome _ _) ?_
  refine checkC_keeps _ _ _ _ (failsInclude_isSome _ _) ?_
  refine checkC_keeps _ _ _ _ (failsExclude_isSome _ _) ?_
  rw [ho, hso]
  refine checkC_keeps _ _ _ _ (by simp [failsInclude]) ?_
  refine checkC_keeps _ _ _ _ (by simp [failsExclude]) ?_
  refine checkC_keeps _ _ _ _ (mounts_check_isSome _ _) ?_
  refine ⟨-1, ?_⟩
  simp [selectPtr, hmt]

theorem find_mounts_linux_from_cons (args : Args) (list : List String)
    (line : List Char) (rest : List (List Char)) :
    find_mounts_linux_from args list (line :: rest) =
      match process_mount true list args (parse_fields line).1
          (parse_fields line).2.1 (parse_fields line).2.2.1
          (parse_fields line).2.2.2 with
      | none => none
      | some pr => find_mounts_linux_from args pr.2 rest := by
  cases hp : process_mount true list args (parse_fields line).1
      (parse_fields line).2.1 (parse_fields line).2.2.1
      (parse_fields line).2.2.2 with
  | none => simp [find_mounts_linux_from, hp]
  | some pr =>
    cases pr with
    | mk cc l2 => simp [find_mounts_linux_from, hp]

/-- Inserting a line whose processing leaves every accumulated list
unchanged (and never crashes) anywhere in the enumeration does not change
the result. -/
theorem find_mounts_linux_from_skip (args : Args) (line : List Char)
    (hline : ∀ list : List String, ∃ c,
      process_mount true list args (parse_fields line).1
        (parse_fields line).2.1 (parse_fields line).2.2.1
        (parse_fields line).2.2.2 = some (c, list)) :
    ∀ (l1 : List (List Char)) (list : List String) (l2 : List (List Char)),
      find_mounts_linux_from args list (l1 ++ line :: l2) =
        find_mounts_linux_from args list (l1 ++ l2) := by
  intro l1
  induction l1 with
  | nil =>
    intro list l2
    rcases hline list with ⟨c, hc⟩
    simp only [List.nil_append]
    rw [find_mounts_linux_from_cons, hc]
  | cons x xs ih =>
    intro list l2
    simp only [List.cons_append]
    rw [find_mounts_linux_from_cons, find_mounts_linux_from_cons]
    cases hp : process_mount true list args (parse_fields x).1
        (parse_fields x).2.1 (parse_fields x).2.2.1
        (parse_fields x).2.2.2 with
    | none => rfl
    | some pr => exact ih pr.2 l2

/-- Counterexample to C7 as stated: the 3-field line `a b c` is not skipped
— under the default configuration (select target, no filters) it
contributes its target field `b` to the accumulated set. -/
theorem C7_counterexample :
    find_mounts_linux (noFilterArgs .mount_to)
      [['a', ' ', 'b', ' ', 'c', '\n']] = some ["b"]
    ∧ find_mounts_linux (noFilterArgs .mount_to)
      [['a', ' ', 'b', ' ', 'c', '\n']] ≠ some [] := by
  exact ⟨by decide, by decide⟩

/-- C7 amended: a line with fewer than four fields is processed with NULL
for the missing fields rather than skipped.  In the configurations where the
missing options field is never dereferenced or selected against — options
selected for output and no options regexes — a 3-field line contributes
nothing to the accumulated set and processing of the remaining lines
continues normally. -/
theorem C7_short_line_with_options_selected (args : Args) (line : List Char)
    (a b c : String)
    (hp : parse_fields line = (some a, some b, some c, none))
    (ho : args.options_regex = none) (hso : args.skip_options_regex = none)
    (hmt : args.mount_type = .mount_options) :
    ∀ (l1 l2 : List (List Char)),
      find_mounts_linux args (l1 ++ line :: l2) =
        find_mounts_linux args (l1 ++ l2) := by
  intro l1 l2
  unfold find_mounts_linux
  have hline : ∀ list : List String, ∃ cc,
      process_mount true list args (parse_fields line).1
        (parse_fields line).2.1 (parse_fields line).2.2.1
        (parse_fields line).2.2.2 = some (cc, list) := by
    intro list
    rw [hp]
    exact process_mount_opts_none_keeps true args list a b c ho hso hmt
  exact find_mounts_linux_from_skip args line hline l1 [] l2

/-- Witness for the amended C7: dropping the 3-field line from a table does
not change the result when options are selected with no options regexes. -/
theorem C7_short_line_witness :
    find_mounts_linux (noFilterArgs .mount_options)
      ([['x', ' ', 'y', ' ', 'z', ' ', 'w', '\n']] ++
        ['a', ' ', 'b', ' ', 'c', '\n'] :: []) =
      find_mounts_linux (noFilterArgs .mount_options)
        ([['x', ' ', 'y', ' ', 'z', ' ', 'w', '\n']] ++ []) :=
  C7_short_line_with_options_selected (noFilterArgs .mount_options)
    ['a', ' ', 'b', ' ', 'c', '\n'] "a" "b" "c\n" (by decide) rfl rfl rfl
    [['x', ' ', 'y', ' ', 'z', ' ', 'w', '\n']] []

/-- Counterexample to C8 as stated: a BSD entry with zero matching flags is
processed with a NULL options string, not an empty one — with the options
field selected it contributes nothing (not the empty string), and a
configured options regex dereferences the NULL string (undefined
behavior) instead of matching the empty string. -/
theorem C8_counterexample :
    find_mounts_bsd (noFilterArgs .mount_options)
      [⟨0, "/dev/ad0", "/", "ufs"⟩] = some []
    ∧ find_mounts_bsd (noFilterArgs .mount_options)
      [⟨0, "/dev/ad0", "/", "ufs"⟩] ≠ some [""]
    ∧ find_mounts_bsd optionsRegexArgs [⟨0, "/dev/ad0", "/", "ufs"⟩] =
        none := by
  exact ⟨by decide, by decide, rfl⟩

theorem find_mounts_bsd_from_cons (args : Args) (list : List String)
    (m : Statfs) (rest : List Statfs) :
    find_mounts_bsd_from args list (m :: rest) =
      match process_mount false list args (some m.f_mntfromname)
          (some m.f_mntonname) (some m.f_fstypename)
          (build_options (m.f_flags &&& MNT_VISFLAGMASK) optnames none) with
      | none => none
      | some pr => find_mounts_bsd_from args pr.2 rest := by
  cases hp : process_mount false list args (some m.f_mntfromname)
      (some m.f_mntonname) (some m.f_fstypename)
      (build_options (m.f_flags &&& MNT_VISFLAGMASK) optnames none) with
  | none => simp [find_mounts_bsd_from, hp]
  | some pr =>
    cases pr with
    | mk cc l2 => simp [find_mounts_bsd_from, hp]

/-- C8 amended: a BSD entry whose visible flags match zero table entries
keeps a NULL options string.  With no options regexes configured the record
still flows through the remaining predicate checks: selecting the options
field contributes nothing (the NULL selected field rejects the record),
while selecting another field under a filterless configuration contributes
that field normally. -/
theorem C8_zero_flags_null_options (args : Args) (e : Statfs)
    (hb : build_options (e.f_flags &&& MNT_VISFLAGMASK) optnames none = none)
    (ho : args.options_regex = none) (hso : args.skip_options_regex = none) :
    (args.mount_type = .mount_options → find_mounts_bsd args [e] = some [])
    ∧ (args.node_regex = none → args.skip_node_regex = none →
       args.fstype_regex = none → args.skip_fstype_regex = none →
       args.mounts = [] → args.mount_type = .mount_fstype →
       find_mounts_bsd args [e] = some [e.f_fstypename]) := by
  constructor
  · intro hmt
    unfold find_mounts_bsd
    rw [find_mounts_bsd_from_cons, hb]
    rcases process_mount_opts_none_keeps false args [] e.f_mntfromname
      e.f_mntonname e.f_fstypename ho hso hmt with ⟨cc, hcc⟩
    rw [hcc]
    rfl
  · intro h1 h2 h3 h4 h5 h6
    unfold find_mounts_bsd
    rw [find_mounts_bsd_from_cons, hb]
    simp [process_mount, checkC, failsInclude, failsExclude, mounts_check,
      selectPtr, h1, h2, h3, h4, h5, h6, ho, hso, rc_strlist_addsortc,
      find_mounts_bsd_from]

/-- Witness for the amended C8: a concrete zero-flag entry contributes
nothing with the options field selected, and contributes its fstype with the
fstype field selected. -/
theorem C8_zero_flags_witness :
    find_mounts_bsd (noFilterArgs .mount_options)
      [⟨0, "/dev/ad1", "/mnt", "ufs"⟩] = some []
    ∧ find_mounts_bsd (noFilterArgs .mount_fstype)
      [⟨0, "/dev/ad1", "/mnt", "ufs"⟩] = some ["ufs"] := by
  constructor
  · exact (C8_zero_flags_null_options (noFilterArgs .mount_options)
      ⟨0, "/dev/ad1", "/mnt", "ufs"⟩ (by decide) rfl rfl).1 rfl
  · exact (C8_zero_flags_null_options (noFilterArgs .mount_fstype)
      ⟨0, "/dev/ad1", "/mnt", "ufs"⟩ (by decide) rfl rfl).2
      rfl rfl rfl rfl rfl rfl

/-- C10: the line read from the mount table is never stripped of its
trailing newline.  With exactly four whitespace-delimited fields the fourth
(options) field retains the newline, and the value emitted for the options
selection includes it; with five or more fields the fourth field ends at the
next space and carries no newline. -/
theorem C10_newline_retained (a b c d e : List Char)
    (ha : ' ' ∉ a) (hb : ' ' ∉ b) (hc : ' ' ∉ c) (hd : ' ' ∉ d)
    (hrootfs : c.asString ≠ "rootfs") :
    parse_fields (a ++ ' ' :: (b ++ ' ' :: (c ++ ' ' :: (d ++ ['\n'])))) =
      (some a.asString, some b.asString, some c.asString,
       some ((d ++ ['\n']).asString))
    ∧ parse_fields (a ++ ' ' :: (b ++ ' ' :: (c ++ ' ' :: (d ++ ' ' :: e))))
      = (some a.asString, some b.asString, some c.asString,
         some d.asString)
    ∧ find_mounts_linux (noFilterArgs .mount_options)
        [a ++ ' ' :: (b ++ ' ' :: (c ++ ' ' :: (d ++ ['\n'])))] =
      some [(d ++ ['\n']).asString] := by
  have hdn : ' ' ∉ d ++ ['\n'] := by
    intro hm
    rcases List.mem_append.mp hm with hm | hm
    · exact hd hm
    · simp at hm
  have hp4 : parse_fields
      (a ++ ' ' :: (b ++ ' ' :: (c ++ ' ' :: (d ++ ['\n'])))) =
      (some a.asString, some b.asString, some c.asString,
       some ((d ++ ['\n']).asString)) := by
    simp [parse_fields, strsepN, strsep_append, strsep_no_space,
      ha, hb, hc, hdn]
  have hp5 : parse_fields
      (a ++ ' ' :: (b ++ ' ' :: (c ++ ' ' :: (d ++ ' ' :: e)))) =
      (some a.asString, some b.asString, some c.asString,
       some d.asString) := by
    simp [parse_fields, strsepN, strsep_append, ha, hb, hc, hd]
  refine ⟨hp4, hp5, ?_⟩
  unfold find_mounts_linux
  rw [find_mounts_linux_from_cons, hp4]
  simp [process_mount, checkC, failsInclude, failsExclude, mounts_check,
    selectPtr, noFilterArgs, beq_eq_false_iff_ne.mpr hrootfs,
    rc_strlist_addsortc, find_mounts_linux_from]

/-- Witness for C10: a concrete 4-field line `s t u v` keeps the newline in
its options value, and the 5-field variant does not. -/
theorem C10_newline_retained_witness :
    parse_fields (['s'] ++ ' ' :: (['t'] ++ ' ' :: (['u'] ++ ' ' ::
        (['v'] ++ ['\n'])))) =
      (some "s", some "t", some "u", some "v\n")
    ∧ find_mounts_linux (noFilterArgs .mount_options)
        [['s'] ++ ' ' :: (['t'] ++ ' ' :: (['u'] ++ ' ' ::
          (['v'] ++ ['\n'])))] = some ["v\n"] := by
  have ht := C10_newline_retained ['s'] ['t'] ['u'] ['v'] ['w']
    (by decide) (by decide) (by decide) (by decide) (by decide)
  exact ⟨ht.1, ht.2.2⟩

end Mountinfo
